import Mathlib

set_option maxRecDepth 16384

/-!
Verification of the Palladium consensus core (difficulty engine, proof-of-work
and AuxPoW validation, block model, submitblock gate).

Machine integers are modelled as `Nat` / `Int` with explicit `% 2 ^ w`
truncation where the C++ code wraps.  256-bit hashes and targets are `Nat`
values below `2 ^ 256` (`arith_uint256` / `uint256` read as unsigned
little-endian integers).  The double-SHA256 hash functions (`SerializeHash`,
`Hash`) are kept abstract: the functions that use them take them as
parameters, since no property proved here depends on the concrete digest.
-/

/- ---------------------------------------------------------------------
Compact target codec.

Modelled from the spec: `arith_uint256.cpp` is not part of the sources at
hand (only its callers in `pow.cpp` are), so `SetCompact` / `GetCompact`
are modelled from the spec's compact-target description (32-bit encoding
as (exponent, 23-bit mantissa, sign flag); decode yields (value, negative,
overflow)), following the standard Bitcoin compact-encoding semantics the
spec describes.
--------------------------------------------------------------------- -/

/-- Result of decoding a compact (nBits) value: the 256-bit target value
together with the negative and overflow flags. -/
structure CompactDecoded where
  value : Nat
  negative : Bool
  overflow : Bool
deriving Repr, DecidableEq

/-- Modelled from the spec: decode of a 32-bit compact value
(`arith_uint256::SetCompact`).  The high byte is the exponent (byte size),
the low 23 bits the mantissa, bit 23 the sign flag; the value is the
mantissa shifted to the exponent's byte position, truncated to 256 bits. -/
def setCompact (nCompact : Nat) : CompactDecoded :=
  let nSize := nCompact >>> 24
  let nWord := nCompact &&& 0x007fffff
  { value := if nSize ≤ 3 then nWord >>> (8 * (3 - nSize))
             else (nWord <<< (8 * (nSize - 3))) % 2 ^ 256
    negative := nWord != 0 && nCompact &&& 0x00800000 != 0
    overflow := nWord != 0 && (decide (34 < nSize) ||
                 (decide (0xff < nWord) && decide (33 < nSize)) ||
                 (decide (0xffff < nWord) && decide (32 < nSize))) }

/-- Scan for the highest set bit from position `n - 1` downwards; returns
one plus that position, or `0` when no bit below `n` is set.  This is the
bounded scan `arith_uint256::bits()` performs over its 256 bit positions. -/
def bitsAux (x : Nat) : Nat → Nat
  | 0 => 0
  | n + 1 => if 2 ^ n ≤ x then n + 1 else bitsAux x n

/-- Modelled from the spec: bit length of a 256-bit value
(`arith_uint256::bits()`), one plus the position of the highest set bit. -/
def u256bits (x : Nat) : Nat :=
  bitsAux x 256

/-- Modelled from the spec: encode of a 256-bit value to compact form
(`arith_uint256::GetCompact` with `fNegative = false`).  The top up-to-three
bytes become the mantissa; when the mantissa's top bit (the sign position)
would be set, the mantissa is shifted down a byte and the exponent bumped,
so the sign bit is never set. -/
def getCompact (x : Nat) : Nat :=
  let nSize := (u256bits x + 7) / 8
  let nCompact := if nSize ≤ 3 then ((x % 2 ^ 64) <<< (8 * (3 - nSize))) % 2 ^ 32
                  else ((x >>> (8 * (nSize - 3))) % 2 ^ 64) % 2 ^ 32
  let c2 := if nCompact &&& 0x00800000 != 0 then nCompact >>> 8 else nCompact
  let s2 := if nCompact &&& 0x00800000 != 0 then nSize + 1 else nSize
  (c2 ||| (s2 <<< 24)) % 2 ^ 32

/- ---------------------------------------------------------------------
Consensus parameters (src/consensus/params.h) and the main-network values
(src/chainparams.cpp, class CMainParams).
--------------------------------------------------------------------- -/

/-- Consensus parameters (the fields of `Consensus::Params` the proof-of-work
and submission code reads).  Heights and time spans are C++ `int` / `int64_t`
values, modelled as `Int`; `powLimit` is a 256-bit unsigned value. -/
structure ConsensusParams where
  powLimit : Nat
  fPowAllowMinDifficultyBlocks : Bool
  fPowNoRetargeting : Bool
  nPowTargetSpacing : Int
  nPowTargetSpacingV2 : Int
  nPowTargetTimespan : Int
  nAuxpowStartHeight : Int
deriving Repr, DecidableEq

/-- Difficulty adjustment interval (`Consensus::Params::DifficultyAdjustmentInterval`):
below height 29000 it is `nPowTargetTimespan / nPowTargetSpacing`, from 29000
on it is `nPowTargetTimespan / nPowTargetSpacingV2` (C++ integer division,
i.e. truncation toward zero). -/
def ConsensusParams.difficultyAdjustmentInterval (p : ConsensusParams) (nHeight : Int) : Int :=
  if nHeight < 29000 then Int.tdiv p.nPowTargetTimespan p.nPowTargetSpacing
  else Int.tdiv p.nPowTargetTimespan p.nPowTargetSpacingV2

/-- Main-network consensus parameters, from `CMainParams` in
src/chainparams.cpp.  `powLimit` is
`00000000ffffffffffffffffffffffffffffffffffffffffffffffffffffffff`,
i.e. `2 ^ 224 - 1`.  `nAuxpowStartHeight` is never assigned in
src/chainparams.cpp, so it keeps the `Consensus::Params` constructor default
`MAX_BLOCK_HEIGHT = std::numeric_limits<int>::max()`. -/
def mainParams : ConsensusParams :=
  { powLimit := 2 ^ 224 - 1
    fPowAllowMinDifficultyBlocks := false
    fPowNoRetargeting := false
    nPowTargetSpacing := 600
    nPowTargetSpacingV2 := 120
    nPowTargetTimespan := 86400
    nAuxpowStartHeight := 2147483647 }

/- ---------------------------------------------------------------------
Block index chain.

Modelled from the spec: `CBlockIndex` (chain.h / chain.cpp) is not part of
the sources at hand, only its callers in src/pow.cpp are.  The spec
describes the in-memory chain as nodes carrying height, time and bits with
parent pointers only, and `GetAncestor(height)` as the walk to the ancestor
at exactly that height (null when the height is above the node's height or
negative).
--------------------------------------------------------------------- -/

/-- Block index node: height (`int`), header time (`uint32_t nTime`),
compact difficulty (`uint32_t nBits`), and the parent pointer. -/
inductive CBlockIndex where
  | mk (nHeight : Int) (nTime : Nat) (nBits : Nat) (pprev : Option CBlockIndex)

/-- Height of a block index node. -/
def CBlockIndex.nHeight : CBlockIndex → Int
  | .mk h _ _ _ => h

/-- Header time field of a block index node. -/
def CBlockIndex.nTime : CBlockIndex → Nat
  | .mk _ t _ _ => t

/-- Compact difficulty field of a block index node. -/
def CBlockIndex.nBits : CBlockIndex → Nat
  | .mk _ _ b _ => b

/-- Parent pointer of a block index node. -/
def CBlockIndex.pprev : CBlockIndex → Option CBlockIndex
  | .mk _ _ _ p => p

/-- Block time (`CBlockIndex::GetBlockTime`): the `uint32_t` time as `int64_t`. -/
def CBlockIndex.getBlockTime (b : CBlockIndex) : Int :=
  (b.nTime : Int)

/-- Modelled from the spec: `CBlockIndex::GetAncestor(height)` — the ancestor
at exactly `height` along the parent pointers, or none when `height` is above
the node's height, negative, or the walk runs out of parents. -/
def CBlockIndex.getAncestor : CBlockIndex → Int → Option CBlockIndex
  | .mk h t bits prev, target =>
    if target > h ∨ target < 0 then none
    else if h = target then some (.mk h t bits prev)
    else match prev with
      | none => none
      | some p => p.getAncestor target

/- ---------------------------------------------------------------------
Proof-of-work checks and the difficulty engine (src/pow.cpp).
--------------------------------------------------------------------- -/

/-- Proof-of-work check (`CheckProofOfWork`, src/pow.cpp:319): decode
`nBits`; reject when the decoded target is negative, zero, overflowing or
above `powLimit`; then require the hash (read as an unsigned 256-bit
integer) to be at most the target. -/
def checkProofOfWork (hash : Nat) (nBits : Nat) (params : ConsensusParams) : Bool :=
  let d := setCompact nBits
  if d.negative || d.value == 0 || d.overflow || decide (params.powLimit < d.value) then false
  else if decide (d.value < hash) then false
  else true

/-- Conversion of a C++ `int64_t` to `arith_uint256` (the implicit
`base_uint(uint64_t)` constructor applied to an `int64_t`): reduction
modulo `2 ^ 64`. -/
def int64ToArith (i : Int) : Nat :=
  (i % 2 ^ 64).toNat

/-- Legacy retarget computation (`CalculateNextWorkRequired`,
src/pow.cpp:177): under `fPowNoRetargeting` return the previous bits
unchanged; otherwise clamp the actual timespan to
`[nPowTargetTimespan/4, nPowTargetTimespan*4]`, scale the previous target by
`actual / nPowTargetTimespan`, clamp to `powLimit` and re-encode. -/
def calculateNextWorkRequired (pindexLast : CBlockIndex) (nFirstBlockTime : Int)
    (params : ConsensusParams) : Nat :=
  if params.fPowNoRetargeting then pindexLast.nBits
  else
    let nActualTimespan0 := pindexLast.getBlockTime - nFirstBlockTime
    let nActualTimespan1 :=
      if nActualTimespan0 < Int.tdiv params.nPowTargetTimespan 4
      then Int.tdiv params.nPowTargetTimespan 4 else nActualTimespan0
    let nActualTimespan :=
      if nActualTimespan1 > params.nPowTargetTimespan * 4
      then params.nPowTargetTimespan * 4 else nActualTimespan1
    let bnNew0 := (setCompact pindexLast.nBits).value
    let bnNew1 := (bnNew0 * int64ToArith nActualTimespan) % 2 ^ 256
    let bnNew2 := bnNew1 / int64ToArith params.nPowTargetTimespan
    let bnNew := if bnNew2 > params.powLimit then params.powLimit else bnNew2
    getCompact bnNew

/-- One pass of the LWMA window walk (the `for` loop of
`LwmaCalculateNextWorkRequired`, src/pow.cpp:130-158): `count` iterations
remain, `i` is the height fetched next, `j` the weight so far, `prevTime`
the previous (monotonically clamped) timestamp, `t` the weighted solve-time
sum and `sumTarget` the 256-bit target sum (wrapping).  Returns none when
`GetAncestor` comes back null, which makes the caller fall back to the
power limit. -/
def lwmaLoop (tip : CBlockIndex) (T : Int) :
    Nat → Int → Int → Int → Int → Nat → Option (Nat × Int)
  | 0, _, _, _, t, sumTarget => some (sumTarget, t)
  | count + 1, i, j, prevTime, t, sumTarget =>
    match tip.getAncestor i with
    | none => none
    | some blockCurrent =>
      let thisTimestamp0 := blockCurrent.getBlockTime
      let thisTimestamp := if thisTimestamp0 < prevTime then prevTime else thisTimestamp0
      let solvetime0 := max 1 (thisTimestamp - prevTime)
      let solvetime := min (6 * T) solvetime0
      let j2 := j + 1
      let t2 := t + solvetime * j2
      let target := (setCompact blockCurrent.nBits).value
      let sumTarget2 := (sumTarget + target) % 2 ^ 256
      lwmaLoop tip T count (i + 1) j2 thisTimestamp t2 sumTarget2

/-- LWMA retarget (`LwmaCalculateNextWorkRequired`, src/pow.cpp:93): with
`T = nPowTargetSpacingV2`, `N = 240` and `k = N*(N+1)*T/2`, average the last
`N` targets, weight the (clamped) solve times linearly, compute
`avgTarget * t / (k * T)`, clamp to `powLimit` and encode.  Heights below
`N` (or 0), a failed ancestor lookup, or zero `N`/`T`/`k` all fall back to
the encoded power limit. -/
def lwmaCalculateNextWorkRequired (pindexLast : CBlockIndex) (params : ConsensusParams) : Nat :=
  let T : Int := params.nPowTargetSpacingV2
  let N : Int := 240
  let k : Int := Int.tdiv (N * (N + 1) * T) 2
  let height : Int := pindexLast.nHeight
  let powLimit := params.powLimit
  if height = 0 then getCompact powLimit
  else if height < N then getCompact powLimit
  else
    match pindexLast.getAncestor (height - N) with
    | none => getCompact powLimit
    | some blockStart =>
      match lwmaLoop pindexLast T 240 (height - N + 1) 0 blockStart.getBlockTime 0 0 with
      | none => getCompact powLimit
      | some (sumTarget, t) =>
        if N = 0 ∨ T = 0 ∨ k = 0 then getCompact powLimit
        else
          let avgTarget := sumTarget / 240
          let nextTarget0 := ((avgTarget * int64ToArith t) % 2 ^ 256) / int64ToArith (k * T)
          let nextTarget := if nextTarget0 > powLimit then powLimit else nextTarget0
          getCompact nextTarget

/-- Walk backwards past special-min-difficulty blocks (the inner `while` of
`GetNextWorkRequired`, src/pow.cpp:73): step to the parent while one exists,
the node is not on an adjustment boundary, and its bits equal the proof-of-work
limit; return the bits of the stopping node. -/
def minDiffWalk : CBlockIndex → ConsensusParams → Nat → Nat
  | .mk h _t bits prev, params, limit =>
    match prev with
    | none => bits
    | some p =>
      if Int.tmod h (params.difficultyAdjustmentInterval h) ≠ 0 ∧ bits = limit
      then minDiffWalk p params limit
      else bits

/-- Legacy (pre-29000) region of `GetNextWorkRequired` (src/pow.cpp:55-89):
off retarget boundaries return the previous bits (or apply the testnet
min-difficulty rule); on a boundary find the first block of the window and
run the legacy retarget.  Returns none where the C++ code would fail its
assertions (`nHeightFirst >= 0`, `pindexFirst` non-null). -/
def legacyRetarget (pindexLast : CBlockIndex) (pblockTime : Int)
    (params : ConsensusParams) : Option Nat :=
  let nProofOfWorkLimit := getCompact params.powLimit
  let nHeight := pindexLast.nHeight + 1
  if Int.tmod nHeight (params.difficultyAdjustmentInterval nHeight) ≠ 0 then
    if params.fPowAllowMinDifficultyBlocks then
      if pblockTime > pindexLast.getBlockTime + params.nPowTargetSpacing * 2
      then some nProofOfWorkLimit
      else some (minDiffWalk pindexLast params nProofOfWorkLimit)
    else some pindexLast.nBits
  else
    let nHeightFirst := pindexLast.nHeight - (params.difficultyAdjustmentInterval nHeight - 1)
    if nHeightFirst < 0 then none
    else match pindexLast.getAncestor nHeightFirst with
      | none => none
      | some pindexFirst =>
        some (calculateNextWorkRequired pindexLast pindexFirst.getBlockTime params)

/-- Difficulty engine dispatch (`GetNextWorkRequired`, src/pow.cpp:30):
heights `pindexLast.nHeight` in `[28930, 28999]` return the encoded power
limit (the LWMA activation reset window); otherwise next heights `≥ 29000`
use the LWMA retarget; otherwise the legacy algorithm runs.  `pblockTime`
is the candidate header's `GetBlockTime()`; none models a failed assertion
in the legacy path. -/
def getNextWorkRequired (pindexLast : CBlockIndex) (pblockTime : Int)
    (params : ConsensusParams) : Option Nat :=
  let nProofOfWorkLimit := getCompact params.powLimit
  if 28930 ≤ pindexLast.nHeight ∧ pindexLast.nHeight ≤ 28999 then some nProofOfWorkLimit
  else
    let nHeight := pindexLast.nHeight + 1
    if nHeight ≥ 29000 then some (lwmaCalculateNextWorkRequired pindexLast params)
    else legacyRetarget pindexLast pblockTime params

/- ---------------------------------------------------------------------
Block and AuxPoW data model (src/primitives/block.h / block.cpp).
--------------------------------------------------------------------- -/

/-- Block header (`CBlockHeader`): the six serialized fields.  `nVersion` is
an `int32_t`; it is modelled as its unsigned 32-bit pattern, which the
version-bit operations (`& AUXPOW_VERSION_BIT`, `&= ~AUXPOW_VERSION_BIT`)
act on identically.  The hash fields are 256-bit values. -/
structure CBlockHeader where
  nVersion : Nat
  hashPrevBlock : Nat
  hashMerkleRoot : Nat
  nTime : Nat
  nBits : Nat
  nNonce : Nat
deriving Repr, DecidableEq

/-- AuxPoW version bit (`CBlockHeader::AUXPOW_VERSION_BIT = 1 << 8`). -/
def auxpowVersionBit : Nat := 256

/-- AuxPoW flag test (`CBlockHeader::IsAuxpow`): version bit 8. -/
def CBlockHeader.isAuxpow (h : CBlockHeader) : Bool :=
  h.nVersion &&& auxpowVersionBit != 0

/-- Transaction input: only the signature script matters to the AuxPoW
commitment scan.  Script bytes are modelled as a list of byte values. -/
structure CTxIn where
  scriptSig : List Nat
deriving Repr, DecidableEq

/-- Transaction (`CTransaction`): only the inputs are consulted by the
AuxPoW verifier; its hash is taken through an abstract hash parameter. -/
structure CTransaction where
  vin : List CTxIn
deriving Repr, DecidableEq

/-- Merge-mining proof (`CAuxPow`): parent coinbase transaction, serialized
auxiliary hash field, Merkle branch and index linking the coinbase into the
parent block, the (unused in production) chain branch and index, and the
parent block header. -/
structure CAuxPow where
  coinbaseTx : CTransaction
  hashBlock : Nat
  vMerkleBranch : List Nat
  nIndex : Int
  vChainMerkleBranch : List Nat
  nChainIndex : Int
  parentBlock : CBlockHeader
deriving Repr, DecidableEq

/-- Block (`CBlock`): header plus the memory-only optional AuxPoW proof.
The transaction list plays no part in the properties proved here and is
omitted. -/
structure CBlock where
  header : CBlockHeader
  m_auxpow : Option CAuxPow
deriving Repr, DecidableEq

/-- Merkle root recomputation from a leaf and a sibling branch
(`ComputeMerkleRootFromBranch`, src/primitives/block.cpp:20): per sibling,
concatenate `(sibling, current)` when the index is odd and
`(current, sibling)` when even, hash, and shift the index down one bit.
`combine` abstracts the double-SHA256 of the concatenation; `Int.emod _ 2`
and `Int.fdiv _ 2` are the two's-complement `& 1` and arithmetic `>> 1` of
the C++ `int` index. -/
def computeMerkleRootFromBranch (combine : Nat → Nat → Nat) :
    Nat → List Nat → Int → Nat
  | hash, [], _ => hash
  | hash, step :: rest, nIndex =>
    let next := if Int.emod nIndex 2 = 1 then combine step hash else combine hash step
    computeMerkleRootFromBranch combine next rest (Int.fdiv nIndex 2)

/-- AuxPoW commitment magic bytes (`pchAuxPowHeader`, src/pow.cpp:211):
0x70 0x6c 0x6d 0x01, "plm" plus 0x01. -/
def pchAuxPowHeader : List Nat := [0x70, 0x6c, 0x6d, 0x01]

/-- First index at which `pattern` occurs as a contiguous run of `l`
(`std::search` over the script bytes), or none. -/
def findSubseqIdx (pattern : List Nat) : List Nat → Option Nat
  | [] => none
  | x :: xs =>
    if pattern.isPrefixOf (x :: xs) then some 0
    else (findSubseqIdx pattern xs).map (· + 1)

/-- Value of 32 commitment bytes after the in-place `std::reverse`
(src/pow.cpp:273-275): `uint256(bytes)` reads them little-endian and the
reverse then makes the first listed byte most significant, so the committed
hash is the big-endian reading of the bytes as they sit in the script. -/
def beBytesToNat (bs : List Nat) : Nat :=
  bs.foldl (fun acc b => acc * 256 + b) 0

/-- Failure cases of `CheckAuxPowProofOfWork` (src/pow.cpp:214), one per
`return error(...)` site, in source order. -/
inductive AuxPowError where
  | noAuxVersionBit
  | noAuxData
  | parentPoWFailed
  | coinbaseMerkleMismatch
  | magicNotFound
  | commitTooShort
  | commitMismatch
  | duplicateParent
deriving Repr, DecidableEq

/-- AuxPoW proof-of-work verification (`CheckAuxPowProofOfWork`,
src/pow.cpp:214).  Checks, in source order: the AuxPoW version bit, the
presence of the proof, the parent block hash against this block's `nBits`,
the coinbase Merkle branch against the parent's Merkle root, the magic
bytes in the parent coinbase's first input script, the 32-byte commitment
length, the commitment against the hash of this header with the AuxPoW bit
cleared, and finally the duplicate-parent set.  `hashHeader` and `hashTx`
abstract `CBlockHeader::GetHash` / `CTransaction::GetHash` (double-SHA256
of the serialization, outside the sources at hand), `combine` the pair hash
of the Merkle step.  `setScanned` is `setAuxPowScannedParentHashes`
(src/pow.cpp:27); the function only reads it — insertion is deferred to
block connection (src/pow.cpp:308) — so the returned set is the input set. -/
def checkAuxPowProofOfWork (hashHeader : CBlockHeader → Nat)
    (hashTx : CTransaction → Nat) (combine : Nat → Nat → Nat)
    (setScanned : List Nat) (block : CBlock) (params : ConsensusParams) :
    Except AuxPowError Unit × List Nat :=
  if !block.header.isAuxpow then (.error .noAuxVersionBit, setScanned)
  else match block.m_auxpow with
    | none => (.error .noAuxData, setScanned)
    | some ap =>
      if !checkProofOfWork (hashHeader ap.parentBlock) block.header.nBits params then
        (.error .parentPoWFailed, setScanned)
      else
        let hashCoinbase := hashTx ap.coinbaseTx
        let calculatedMerkleRoot :=
          computeMerkleRootFromBranch combine hashCoinbase ap.vMerkleBranch ap.nIndex
        if ap.parentBlock.hashMerkleRoot ≠ calculatedMerkleRoot then
          (.error .coinbaseMerkleMismatch, setScanned)
        else
          let scriptSig := (ap.coinbaseTx.vin.headD ⟨[]⟩).scriptSig
          match findSubseqIdx pchAuxPowHeader scriptSig with
          | none => (.error .magicNotFound, setScanned)
          | some pc =>
            let vchCommitment := scriptSig.drop (pc + pchAuxPowHeader.length)
            if vchCommitment.length < 32 then (.error .commitTooShort, setScanned)
            else
              let hashAuxBlockCommit := beBytesToNat (vchCommitment.take 32)
              let headerNoAux :=
                { block.header with nVersion := block.header.nVersion &&& 0xFFFFFEFF }
              let hashAuxBlockExpected := hashHeader headerNoAux
              if hashAuxBlockCommit ≠ hashAuxBlockExpected then
                (.error .commitMismatch, setScanned)
              else if hashHeader ap.parentBlock ∈ setScanned then
                (.error .duplicateParent, setScanned)
              else (.ok (), setScanned)

/-- Read-path handling of the AuxPoW slot in `CBlock::SerializationOp`
(src/primitives/block.h:197-241), after the header fields have been read:
with the AuxPoW version flag clear the slot is reset to empty; with the
flag set the proof is read from the stream, and if its parent block hash is
null the slot is reset to empty (the `throw` for malformed data is
commented out in the source, so no error is ever produced — the `Except`
codomain records that no path rejects).  `streamAux` is the proof as
decoded from the stream; `hashHeader` abstracts `CBlockHeader::GetHash`. -/
def blockReadAuxpowSlot (hashHeader : CBlockHeader → Nat) (hdr : CBlockHeader)
    (streamAux : CAuxPow) : Except String (Option CAuxPow) :=
  if hdr.isAuxpow then
    if hashHeader streamAux.parentBlock = 0 then .ok none
    else .ok (some streamAux)
  else .ok none

/- ---------------------------------------------------------------------
Block submission gate (submitblock, src/rpc/mining.cpp:905).
--------------------------------------------------------------------- -/

/-- Outcome of the submitblock entry checks: a thrown `JSONRPCError`, a
returned BIP22 reply string, or fall-through to full block processing. -/
inductive SubmitResult where
  | rpcErr (msg : String)
  | reply (msg : String)
  | proceed
deriving Repr, DecidableEq

/-- Entry gate of `submitblock` (src/rpc/mining.cpp:929-966): resolve the
would-be height from the previous block's index (genesis gets height 0; an
unknown previous block throws `RPC_VERIFY_ERROR`), then cross-check the
AuxPoW version flag and proof presence against `nAuxpowStartHeight`.
`prevHeight` is the looked-up height of `hashPrevBlock`'s index entry,
`isGenesisHash` whether the block's own hash equals
`hashGenesisBlock`, `hasAuxFlag` the block's AuxPoW version bit and
`proofPresent` whether `m_auxpow` is non-null after decoding. -/
def submitblockGate (prevHeight : Option Int) (isGenesisHash : Bool)
    (params : ConsensusParams) (hasAuxFlag : Bool) (proofPresent : Bool) :
    SubmitResult :=
  let heightInfo : Except String Int :=
    match prevHeight with
    | some ph => .ok (ph + 1)
    | none =>
      if isGenesisHash then .ok 0
      else .error "Block rejected: previous block not known"
  match heightInfo with
  | .error e => .rpcErr e
  | .ok nHeight =>
    let fShouldHaveAuxPow := decide (nHeight ≥ params.nAuxpowStartHeight)
    if fShouldHaveAuxPow && !hasAuxFlag then .reply "rejected: bad-auxpow-version-missing"
    else if !fShouldHaveAuxPow && hasAuxFlag then .reply "rejected: bad-auxpow-unexpected"
    else if fShouldHaveAuxPow && !proofPresent then .reply "rejected: bad-auxpow-data-missing"
    else .proceed

/- ---------------------------------------------------------------------
Concrete fixtures used by witnesses and counterexamples.
--------------------------------------------------------------------- -/

/-- Index node inside the reset window: height 28950, arbitrary bits. -/
def idxResetWindow : CBlockIndex := .mk 28950 0 0x1b00ffff none

/-- Index node past the LWMA switch: height 29500, no ancestors recorded. -/
def idxLwmaHeight : CBlockIndex := .mk 29500 0 0x1b00ffff none

/-- Index node in the legacy region: height 100, off the retarget boundary. -/
def idxLegacyHeight : CBlockIndex := .mk 100 0 0x1c123456 none

/-- Main parameters with `fPowNoRetargeting` switched on. -/
def noRetargetParams : ConsensusParams :=
  { mainParams with fPowNoRetargeting := true }

/-- Index node for the no-retargeting counterexample: height 28930 (inside
the reset window) with bits distinct from the encoded power limit. -/
def idxNoRetarget : CBlockIndex := .mk 28930 0 0x1c00ffff none

/-- Chain of `n + 1` blocks at heights `0..n`, all with time 0 and
`nBits = 0`, for the degenerate-window LWMA counterexample. -/
def zeroChain : Nat → CBlockIndex
  | 0 => .mk 0 0 0 none
  | n + 1 => .mk ((n : Int) + 1) 0 0 (some (zeroChain n))

/-- Main parameters with the AuxPoW activation height at 29000, for
exercising the submission gate. -/
def auxParams : ConsensusParams :=
  { mainParams with nAuxpowStartHeight := 29000 }

/-- Parent header fixture for the AuxPoW verifier: Merkle root 5 so the
empty coinbase branch check passes against the constant coinbase hash 5. -/
def parentHeaderFix : CBlockHeader :=
  { nVersion := 1, hashPrevBlock := 0, hashMerkleRoot := 5,
    nTime := 0, nBits := 0, nNonce := 0 }

/-- Parent coinbase fixture: one input whose script is the magic bytes
followed by 32 commitment bytes reading (big-endian) as 1. -/
def coinbaseTxFix : CTransaction :=
  { vin := [{ scriptSig := pchAuxPowHeader ++ (List.replicate 31 0 ++ [1]) }] }

/-- AuxPoW proof fixture built from the parent fixtures. -/
def auxPowFix : CAuxPow :=
  { coinbaseTx := coinbaseTxFix, hashBlock := 0, vMerkleBranch := [],
    nIndex := 0, vChainMerkleBranch := [], nChainIndex := 0,
    parentBlock := parentHeaderFix }

/-- AuxPoW block fixture: version with bit 8 set, `nBits` the power-limit
encoding, carrying `auxPowFix`. -/
def auxBlockFix : CBlock :=
  { header := { nVersion := 263, hashPrevBlock := 0, hashMerkleRoot := 0,
                nTime := 0, nBits := 0x1d00ffff, nNonce := 0 },
    m_auxpow := some auxPowFix }

/-- Constant header-hash oracle returning 1 (both the parent block hash and
the commitment hash evaluate to 1 under it). -/
def hashHeaderOne : CBlockHeader → Nat := fun _ => 1

/-- Constant transaction-hash oracle returning 5. -/
def hashTxFive : CTransaction → Nat := fun _ => 5

/-- Constant header-hash oracle returning 0, making every parent block hash
null for the deserialization fixture. -/
def hashHeaderZero : CBlockHeader → Nat := fun _ => 0

/- ---------------------------------------------------------------------
Helper lemmas about the compact codec.
--------------------------------------------------------------------- -/

/-- Disjoint bitwise or is addition: a low part below `2 ^ n` or-ed with a
value shifted up by `n`. -/
theorem lor_shiftLeft_eq_add (w e n : Nat) (hw : w < 2 ^ n) :
    w ||| (e <<< n) = w + e * 2 ^ n := by
  apply Nat.eq_of_testBit_eq
  intro i
  rw [Nat.testBit_lor, Nat.testBit_shiftLeft]
  have hsum : w + e * 2 ^ n = 2 ^ n * e + w := by ring
  rw [hsum, Nat.testBit_mul_pow_two_add e hw i]
  by_cases hi : i < n
  · have hni : ¬ (i ≥ n) := by omega
    simp [hi, hni]
  · have hge : i ≥ n := by omega
    have hwi : w.testBit i = false :=
      Nat.testBit_lt_two_pow (lt_of_lt_of_le hw (Nat.pow_le_pow_right (by norm_num) hge))
    simp [hi, hge, hwi]

/-- The mantissa sign-position test of the codec, for values below `2 ^ 24`:
bit 23 is set exactly when the value is at least `2 ^ 23`. -/
theorem and_bit23_ne (c : Nat) (hc : c < 2 ^ 24) :
    (c &&& 0x00800000 != 0) = decide (2 ^ 23 ≤ c) := by
  have e23 : (2:Nat) ^ 23 = 8388608 := by norm_num
  have e24 : (2:Nat) ^ 24 = 16777216 := by norm_num
  have h1 : (0x00800000 : Nat) = 2 ^ 23 := by norm_num
  rw [h1, Nat.and_two_pow, Nat.testBit_to_div_mod, e23]
  by_cases h : (8388608 : Nat) ≤ c
  · have hd : c / 8388608 % 2 = 1 := by omega
    simp [hd, h]
  · have hd : c / 8388608 % 2 = 0 := by omega
    simp [hd, h]

/-- The bounded high-bit scan agrees with `Nat.size` on its domain. -/
theorem bitsAux_eq_size (x : Nat) : ∀ n, x < 2 ^ n → bitsAux x n = Nat.size x := by
  intro n
  induction n with
  | zero =>
    intro h
    have hx : x = 0 := by
      have : (2:Nat) ^ 0 = 1 := by norm_num
      omega
    subst hx
    simp [bitsAux, Nat.size_zero]
  | succ n ih =>
    intro h
    by_cases hle : 2 ^ n ≤ x
    · have h1 : n < Nat.size x := Nat.lt_size.mpr hle
      have h2 : Nat.size x ≤ n + 1 := Nat.size_le.mpr h
      simp only [bitsAux, if_pos hle]
      omega
    · simp only [bitsAux, if_neg hle]
      exact ih (by omega)

/-- Decoding a compact value assembled from a mantissa `w < 2 ^ 23` and an
exponent byte `m`: the value is the mantissa shifted to the exponent's byte
position. -/
theorem setCompact_assemble (w m : Nat) (hw : w < 2 ^ 23) (hm1 : 1 ≤ m) (hm2 : m ≤ 255) :
    (setCompact ((w ||| (m <<< 24)) % 2 ^ 32)).value =
      if m ≤ 3 then w >>> (8 * (3 - m)) else (w <<< (8 * (m - 3))) % 2 ^ 256 := by
  have hw24 : w < 2 ^ 24 := by
    have h23 : (2:Nat) ^ 23 = 8388608 := by norm_num
    have h24 : (2:Nat) ^ 24 = 16777216 := by norm_num
    omega
  rw [lor_shiftLeft_eq_add w m 24 hw24]
  have e23 : (2:Nat) ^ 23 = 8388608 := by norm_num
  have e24 : (2:Nat) ^ 24 = 16777216 := by norm_num
  have e32 : (2:Nat) ^ 32 = 4294967296 := by norm_num
  have hlt : w + m * 2 ^ 24 < 2 ^ 32 := by omega
  rw [Nat.mod_eq_of_lt hlt]
  simp only [setCompact]
  have h1 : (w + m * 2 ^ 24) >>> 24 = m := by
    rw [Nat.shiftRight_eq_div_pow]
    omega
  have h2 : (w + m * 2 ^ 24) &&& 0x007fffff = w := by
    have hmask : (0x007fffff : Nat) = 2 ^ 23 - 1 := by norm_num
    rw [hmask, Nat.and_pow_two_sub_one_eq_mod]
    omega
  rw [h1, h2]

/-- Round-trip bound of the compact codec: decoding an encoded 256-bit
value never exceeds the original (encoding truncates the value to its top
at-most-three bytes). -/
theorem getCompactValue_le (x : Nat) (hx : x < 2 ^ 256) :
    (setCompact (getCompact x)).value ≤ x := by
  by_cases hx0 : x = 0
  · subst hx0
    decide
  · have hx1 : 1 ≤ x := by omega
    have hub : u256bits x = Nat.size x := bitsAux_eq_size x 256 hx
    have hs256 : Nat.size x ≤ 256 := Nat.size_le.mpr hx
    have hs1 : 1 ≤ Nat.size x := Nat.lt_size.mpr (by simpa using hx1)
    simp only [getCompact]
    rw [hub]
    set s := Nat.size x with hsdef
    set m := (s + 7) / 8 with hmdef
    have hm1 : 1 ≤ m := by omega
    have hm32 : m ≤ 32 := by omega
    have hxm : x < 2 ^ (8 * m) := Nat.size_le.mp (by omega)
    by_cases hc3 : m ≤ 3
    · rw [if_pos hc3]
      have hx24 : x < 2 ^ 24 := lt_of_lt_of_le hxm (Nat.pow_le_pow_right (by norm_num) (by omega))
      have hx64 : x % 2 ^ 64 = x := Nat.mod_eq_of_lt (lt_of_lt_of_le hx24 (by norm_num))
      rw [hx64, Nat.shiftLeft_eq]
      have hc24 : x * 2 ^ (8 * (3 - m)) < 2 ^ 24 := by
        calc x * 2 ^ (8 * (3 - m)) < 2 ^ (8 * m) * 2 ^ (8 * (3 - m)) :=
              Nat.mul_lt_mul_of_lt_of_le hxm (le_refl _) (Nat.pos_pow_of_pos _ (by norm_num))
          _ = 2 ^ 24 := by
              rw [← pow_add]
              congr 1
              omega
      have hmod32 : x * 2 ^ (8 * (3 - m)) % 2 ^ 32 = x * 2 ^ (8 * (3 - m)) :=
        Nat.mod_eq_of_lt (lt_of_lt_of_le hc24 (by norm_num))
      rw [hmod32]
      set c := x * 2 ^ (8 * (3 - m)) with hcdef
      rw [and_bit23_ne c hc24]
      by_cases hbit : 2 ^ 23 ≤ c
      · simp only [decide_eq_true_eq]
        rw [if_pos hbit, if_pos hbit, Nat.shiftRight_eq_div_pow]
        have hw : c / 2 ^ 8 < 2 ^ 23 := by
          have e24 : (2:Nat) ^ 24 = 16777216 := by norm_num
          have e23 : (2:Nat) ^ 23 = 8388608 := by norm_num
          have e8 : (2:Nat) ^ 8 = 256 := by norm_num
          omega
        rw [setCompact_assemble (c / 2 ^ 8) (m + 1) hw (by omega) (by omega)]
        by_cases hm3 : m + 1 ≤ 3
        · rw [if_pos hm3, Nat.shiftRight_eq_div_pow, Nat.div_div_eq_div_mul]
          have hexp : (2:Nat) ^ 8 * 2 ^ (8 * (3 - (m + 1))) = 2 ^ (8 * (3 - m)) := by
            rw [← pow_add]
            congr 1
            omega
          rw [hexp, hcdef, Nat.mul_div_cancel _ (Nat.pos_pow_of_pos _ (by norm_num))]
        · rw [if_neg hm3, Nat.shiftLeft_eq]
          have hm3e : m = 3 := by omega
          have hcx : c = x := by
            rw [hcdef, hm3e]
            norm_num
          have key : c / 2 ^ 8 * 2 ^ (8 * (m + 1 - 3)) ≤ x := by
            have he : 8 * (m + 1 - 3) = 8 := by omega
            rw [he]
            have hd : c / 2 ^ 8 * 2 ^ 8 ≤ c := Nat.div_mul_le_self c (2 ^ 8)
            omega
          exact le_trans (Nat.mod_le _ _) key
      · simp only [decide_eq_true_eq]
        rw [if_neg hbit, if_neg hbit]
        rw [setCompact_assemble c m (by omega) hm1 (by omega)]
        rw [if_pos hc3, Nat.shiftRight_eq_div_pow, hcdef,
          Nat.mul_div_cancel _ (Nat.pos_pow_of_pos _ (by norm_num))]
    · rw [if_neg hc3]
      rw [Nat.shiftRight_eq_div_pow]
      have hc24 : x / 2 ^ (8 * (m - 3)) < 2 ^ 24 := by
        rw [Nat.div_lt_iff_lt_mul (Nat.pos_pow_of_pos _ (by norm_num))]
        calc x < 2 ^ (8 * m) := hxm
          _ = 2 ^ 24 * 2 ^ (8 * (m - 3)) := by
              rw [← pow_add]
              congr 1
              omega
      have hmod64 : x / 2 ^ (8 * (m - 3)) % 2 ^ 64 = x / 2 ^ (8 * (m - 3)) :=
        Nat.mod_eq_of_lt (lt_of_lt_of_le hc24 (by norm_num))
      have hmod32 : x / 2 ^ (8 * (m - 3)) % 2 ^ 32 = x / 2 ^ (8 * (m - 3)) :=
        Nat.mod_eq_of_lt (lt_of_lt_of_le hc24 (by norm_num))
      rw [hmod64, hmod32]
      set c := x / 2 ^ (8 * (m - 3)) with hcdef
      have hcx : c * 2 ^ (8 * (m - 3)) ≤ x := Nat.div_mul_le_self x _
      rw [and_bit23_ne c hc24]
      by_cases hbit : 2 ^ 23 ≤ c
      · simp only [decide_eq_true_eq]
        rw [if_pos hbit, if_pos hbit, Nat.shiftRight_eq_div_pow]
        have hw : c / 2 ^ 8 < 2 ^ 23 := by
          have e24 : (2:Nat) ^ 24 = 16777216 := by norm_num
          have e23 : (2:Nat) ^ 23 = 8388608 := by norm_num
          have e8 : (2:Nat) ^ 8 = 256 := by norm_num
          omega
        rw [setCompact_assemble (c / 2 ^ 8) (m + 1) hw (by omega) (by omega)]
        rw [if_neg (show ¬ m + 1 ≤ 3 by omega), Nat.shiftLeft_eq]
        have key : c / 2 ^ 8 * 2 ^ (8 * (m + 1 - 3)) ≤ x := by
          have he : 8 * (m + 1 - 3) = 8 + 8 * (m - 3) := by omega
          rw [he, pow_add]
          calc c / 2 ^ 8 * (2 ^ 8 * 2 ^ (8 * (m - 3)))
              = c / 2 ^ 8 * 2 ^ 8 * 2 ^ (8 * (m - 3)) := by ring
            _ ≤ c * 2 ^ (8 * (m - 3)) :=
                Nat.mul_le_mul_right _ (Nat.div_mul_le_self c (2 ^ 8))
            _ ≤ x := hcx
        exact le_trans (Nat.mod_le _ _) key
      · simp only [decide_eq_true_eq]
        rw [if_neg hbit, if_neg hbit]
        rw [setCompact_assemble c m (by omega) hm1 (by omega)]
        rw [if_neg hc3, Nat.shiftLeft_eq]
        exact le_trans (Nat.mod_le _ _) hcx

/-- Occurrence soundness of the script scan: when `findSubseqIdx` reports
index `i`, the pattern is a prefix of the list dropped at `i`. -/
theorem findSubseqIdx_isPrefixOf (pattern : List Nat) :
    ∀ (l : List Nat) (i : Nat), findSubseqIdx pattern l = some i →
      pattern.isPrefixOf (l.drop i) = true := by
  intro l
  induction l with
  | nil =>
    intro i h
    simp [findSubseqIdx] at h
  | cons x xs ih =>
    intro i h
    simp only [findSubseqIdx] at h
    by_cases hp : pattern.isPrefixOf (x :: xs)
    · rw [if_pos hp] at h
      cases h
      simpa using hp
    · rw [if_neg hp] at h
      cases hfind : findSubseqIdx pattern xs with
      | none => rw [hfind] at h; simp at h
      | some k =>
        rw [hfind] at h
        simp only [Option.map_some'] at h
        cases h
        simpa using ih k hfind

/- ---------------------------------------------------------------------
Claim theorems.
--------------------------------------------------------------------- -/

/-- C1: `CheckProofOfWork(h, nBits, params)` returns true iff the decoded
target is non-negative, non-zero, non-overflowing and at most `powLimit`,
and the hash, read as an unsigned 256-bit integer, is at most the decoded
target. -/
theorem checkProofOfWork_iff (hash nBits : Nat) (params : ConsensusParams) :
    checkProofOfWork hash nBits params = true ↔
      ((setCompact nBits).negative = false ∧ (setCompact nBits).value ≠ 0 ∧
       (setCompact nBits).overflow = false ∧
       (setCompact nBits).value ≤ params.powLimit ∧
       hash ≤ (setCompact nBits).value) := by
  unfold checkProofOfWork
  cases h1 : (setCompact nBits).negative <;>
    cases h2 : (setCompact nBits).overflow <;>
      simp [h1, h2] <;> omega

/-- C2: the difficulty engine dispatch — predecessor heights in
`[28930, 28999]` yield the encoded power limit; otherwise next heights at
or above 29000 use the LWMA retarget; all other cases run the legacy
algorithm. -/
theorem getNextWorkRequired_dispatch (b : CBlockIndex) (pt : Int) (p : ConsensusParams) :
    (28930 ≤ b.nHeight ∧ b.nHeight ≤ 28999 →
        getNextWorkRequired b pt p = some (getCompact p.powLimit)) ∧
    (¬ (28930 ≤ b.nHeight ∧ b.nHeight ≤ 28999) → b.nHeight + 1 ≥ 29000 →
        getNextWorkRequired b pt p = some (lwmaCalculateNextWorkRequired b p)) ∧
    (¬ (28930 ≤ b.nHeight ∧ b.nHeight ≤ 28999) → b.nHeight + 1 < 29000 →
        getNextWorkRequired b pt p = legacyRetarget b pt p) := by
  refine ⟨?_, ?_, ?_⟩
  · intro h
    simp [getNextWorkRequired, h]
  · intro h1 h2
    simp [getNextWorkRequired, h1, h2]
  · intro h1 h2
    simp [getNextWorkRequired, h1, h2, show ¬ b.nHeight + 1 ≥ 29000 by omega]

/-- C2 witness: the three dispatch branches at concrete predecessor
indices (heights 28950, 29500 and 100). -/
theorem getNextWorkRequired_dispatch_w :
    getNextWorkRequired idxResetWindow 0 mainParams = some (getCompact mainParams.powLimit) ∧
    getNextWorkRequired idxLwmaHeight 0 mainParams =
      some (lwmaCalculateNextWorkRequired idxLwmaHeight mainParams) ∧
    getNextWorkRequired idxLegacyHeight 0 mainParams = legacyRetarget idxLegacyHeight 0 mainParams :=
  ⟨(getNextWorkRequired_dispatch idxResetWindow 0 mainParams).1 (by decide),
   (getNextWorkRequired_dispatch idxLwmaHeight 0 mainParams).2.1 (by decide) (by decide),
   (getNextWorkRequired_dispatch idxLegacyHeight 0 mainParams).2.2 (by decide) (by decide)⟩

/-- C7 (amended): the `fPowNoRetargeting` short-circuit lives in the legacy
retarget computation `CalculateNextWorkRequired`, which returns the
predecessor's bits unchanged when the flag is set. -/
theorem calculateNextWorkRequired_noRetarget (b : CBlockIndex) (t : Int)
    (p : ConsensusParams) (h : p.fPowNoRetargeting = true) :
    calculateNextWorkRequired b t p = b.nBits := by
  simp [calculateNextWorkRequired, h]

/-- C7 witness: with the flag set the legacy computation returns the
concrete predecessor's bits. -/
theorem calculateNextWorkRequired_noRetarget_w :
    calculateNextWorkRequired (.mk 0 0 1234 none) 0 noRetargetParams =
      (CBlockIndex.mk 0 0 1234 none).nBits :=
  calculateNextWorkRequired_noRetarget (.mk 0 0 1234 none) 0 noRetargetParams (by decide)

/-- C7 counterexample: with `fPowNoRetargeting` set, `GetNextWorkRequired`
does not return the predecessor's bits — at height 28930 the reset window
returns the encoded power limit regardless of the flag (and the LWMA path
never consults the flag either). -/
theorem getNextWorkRequired_noRetarget_cx :
    noRetargetParams.fPowNoRetargeting = true ∧
    getNextWorkRequired idxNoRetarget 0 noRetargetParams ≠ some idxNoRetarget.nBits := by
  exact ⟨by decide, by decide⟩

/-- C8 (amended): the deserialization read path leaves the AuxPoW slot
empty when the version flag is clear; when the flag is set and the decoded
proof's parent block hash is null it resets the slot to empty and succeeds
(no rejection); otherwise it stores the decoded proof. -/
theorem blockReadAuxpowSlot_spec (hh : CBlockHeader → Nat) (hdr : CBlockHeader)
    (aux : CAuxPow) :
    (hdr.isAuxpow = false → blockReadAuxpowSlot hh hdr aux = .ok none) ∧
    (hdr.isAuxpow = true → hh aux.parentBlock = 0 →
        blockReadAuxpowSlot hh hdr aux = .ok none) ∧
    (hdr.isAuxpow = true → hh aux.parentBlock ≠ 0 →
        blockReadAuxpowSlot hh hdr aux = .ok (some aux)) := by
  refine ⟨?_, ?_, ?_⟩ <;> intros <;> simp [blockReadAuxpowSlot, *]

/-- C8 witness: the three read-path cases at concrete headers, proofs and
hash oracles. -/
theorem blockReadAuxpowSlot_w :
    blockReadAuxpowSlot hashHeaderZero parentHeaderFix auxPowFix = .ok none ∧
    blockReadAuxpowSlot hashHeaderZero auxBlockFix.header auxPowFix = .ok none ∧
    blockReadAuxpowSlot hashHeaderOne auxBlockFix.header auxPowFix = .ok (some auxPowFix) :=
  ⟨(blockReadAuxpowSlot_spec hashHeaderZero parentHeaderFix auxPowFix).1 (by decide),
   (blockReadAuxpowSlot_spec hashHeaderZero auxBlockFix.header auxPowFix).2.1 (by decide) rfl,
   (blockReadAuxpowSlot_spec hashHeaderOne auxBlockFix.header auxPowFix).2.2 (by decide)
     (by decide)⟩

/-- C8 counterexample: an AuxPoW-flagged block whose decoded proof has a
null parent block hash is not rejected as malformed — the read path
succeeds with the slot reset to empty. -/
theorem blockReadAuxpowSlot_cx :
    auxBlockFix.header.isAuxpow = true ∧
    hashHeaderZero auxPowFix.parentBlock = 0 ∧
    blockReadAuxpowSlot hashHeaderZero auxBlockFix.header auxPowFix = .ok none :=
  ⟨by decide, rfl, rfl⟩

/-- C5: the submitblock AuxPoW gate, for blocks whose would-be height
`ph + 1` is resolved from the previous block's index entry: flag set below
the activation height replies bad-auxpow-unexpected, flag missing at or
above replies bad-auxpow-version-missing, flag set with the proof object
absent replies bad-auxpow-data-missing, and the remaining combinations fall
through to full validation. -/
theorem submitblockGate_auxpow (ph : Int) (g : Bool) (p : ConsensusParams)
    (flag pr : Bool) :
    (ph + 1 < p.nAuxpowStartHeight → flag = true →
        submitblockGate (some ph) g p flag pr = .reply "rejected: bad-auxpow-unexpected") ∧
    (ph + 1 ≥ p.nAuxpowStartHeight → flag = false →
        submitblockGate (some ph) g p flag pr = .reply "rejected: bad-auxpow-version-missing") ∧
    (ph + 1 ≥ p.nAuxpowStartHeight → flag = true → pr = false →
        submitblockGate (some ph) g p flag pr = .reply "rejected: bad-auxpow-data-missing") ∧
    (ph + 1 < p.nAuxpowStartHeight → flag = false →
        submitblockGate (some ph) g p flag pr = .proceed) ∧
    (ph + 1 ≥ p.nAuxpowStartHeight → flag = true → pr = true →
        submitblockGate (some ph) g p flag pr = .proceed) := by
  refine ⟨?_, ?_, ?_, ?_, ?_⟩ <;> intros <;> subst_vars <;>
    simp_all [submitblockGate]

/-- C5 witness: the five gate outcomes at concrete heights around an
activation height of 29000. -/
theorem submitblockGate_auxpow_w :
    submitblockGate (some 28998) false auxParams true false =
      .reply "rejected: bad-auxpow-unexpected" ∧
    submitblockGate (some 28999) false auxParams false false =
      .reply "rejected: bad-auxpow-version-missing" ∧
    submitblockGate (some 28999) false auxParams true false =
      .reply "rejected: bad-auxpow-data-missing" ∧
    submitblockGate (some 0) false auxParams false false = .proceed ∧
    submitblockGate (some 28999) false auxParams true true = .proceed :=
  ⟨(submitblockGate_auxpow 28998 false auxParams true false).1 (by decide) rfl,
   (submitblockGate_auxpow 28999 false auxParams false false).2.1 (by decide) rfl,
   (submitblockGate_auxpow 28999 false auxParams true false).2.2.1 (by decide) rfl rfl,
   (submitblockGate_auxpow 0 false auxParams false false).2.2.2.1 (by decide) rfl,
   (submitblockGate_auxpow 28999 false auxParams true true).2.2.2.2 (by decide) rfl rfl⟩

/-- C9 (amended): when the previous block is unknown and the block is not
the genesis block, submitblock throws the JSON-RPC error "Block rejected:
previous block not known" (`RPC_VERIFY_ERROR`) instead of replying with a
BIP22 string. -/
theorem submitblockGate_unknownPrev (p : ConsensusParams) (flag pr : Bool) :
    submitblockGate none false p flag pr =
      .rpcErr "Block rejected: previous block not known" := rfl

/-- C9 counterexample: at a concrete submission whose previous block is
unknown (and which is not genesis), the outcome is the thrown RPC error,
not the reply `inconclusive-not-best-prevblk` the claim states. -/
theorem submitblockGate_unknownPrev_cx :
    submitblockGate none false auxParams false false =
      .rpcErr "Block rejected: previous block not known" ∧
    submitblockGate none false auxParams false false ≠
      .reply "inconclusive-not-best-prevblk" := by
  exact ⟨rfl, by decide⟩

/-- C10: recomputing a Merkle root from a leaf with an empty sibling branch
returns the leaf itself, for every index and pair-hash function, so an
empty-branch Merkle check degenerates to direct equality with the root. -/
theorem computeMerkleRootFromBranch_nil (cb : Nat → Nat → Nat) (h : Nat) (i : Int) :
    computeMerkleRootFromBranch cb h [] i = h := rfl

/-- Frame helper: the AuxPoW verifier returns the duplicate-parent set it
was given, on every path. -/
theorem checkAuxPow_snd (hh : CBlockHeader → Nat) (ht : CTransaction → Nat)
    (cb : Nat → Nat → Nat) (scanned : List Nat) (blk : CBlock) (p : ConsensusParams) :
    (checkAuxPowProofOfWork hh ht cb scanned blk p).2 = scanned := by
  simp only [checkAuxPowProofOfWork]
  repeat' split
  all_goals rfl

/-- Success characterization of the AuxPoW verifier: it returns ok exactly
when the version bit is set, the proof is present, the parent hash meets
the block's target, the coinbase Merkle branch reproduces the parent's
Merkle root, the magic bytes are found with at least 32 commitment bytes
after them matching the hash of the header with the AuxPoW bit cleared,
and the parent hash is not in the duplicate-parent set. -/
theorem checkAuxPow_ok_iff (hh : CBlockHeader → Nat) (ht : CTransaction → Nat)
    (cb : Nat → Nat → Nat) (scanned : List Nat) (blk : CBlock) (p : ConsensusParams) :
    (checkAuxPowProofOfWork hh ht cb scanned blk p).1 = .ok () ↔
      (blk.header.isAuxpow = true ∧
       ∃ ap, blk.m_auxpow = some ap ∧
         checkProofOfWork (hh ap.parentBlock) blk.header.nBits p = true ∧
         ap.parentBlock.hashMerkleRoot =
           computeMerkleRootFromBranch cb (ht ap.coinbaseTx) ap.vMerkleBranch ap.nIndex ∧
         ∃ pc, findSubseqIdx pchAuxPowHeader (ap.coinbaseTx.vin.headD ⟨[]⟩).scriptSig = some pc ∧
           32 ≤ ((ap.coinbaseTx.vin.headD ⟨[]⟩).scriptSig.drop
                   (pc + pchAuxPowHeader.length)).length ∧
           beBytesToNat (((ap.coinbaseTx.vin.headD ⟨[]⟩).scriptSig.drop
                   (pc + pchAuxPowHeader.length)).take 32) =
             hh { blk.header with nVersion := blk.header.nVersion &&& 0xFFFFFEFF } ∧
           hh ap.parentBlock ∉ scanned) := by
  cases hb : blk.header.isAuxpow with
  | false => simp [checkAuxPowProofOfWork, hb]
  | true =>
    cases hmx : blk.m_auxpow with
    | none => simp [checkAuxPowProofOfWork, hb, hmx]
    | some ap =>
      cases hpw : checkProofOfWork (hh ap.parentBlock) blk.header.nBits p with
      | false => simp [checkAuxPowProofOfWork, hb, hmx, hpw]
      | true =>
        by_cases hmr : ap.parentBlock.hashMerkleRoot =
            computeMerkleRootFromBranch cb (ht ap.coinbaseTx) ap.vMerkleBranch ap.nIndex
        · cases hfind : findSubseqIdx pchAuxPowHeader
              (ap.coinbaseTx.vin.headD ⟨[]⟩).scriptSig with
          | none =>
            simp [checkAuxPowProofOfWork, hb, hmx, hpw, hmr, hfind,
              -List.headD_eq_head?_getD, -List.length_drop]
          | some pc =>
            by_cases hlen : ((ap.coinbaseTx.vin.headD ⟨[]⟩).scriptSig.drop
                (pc + pchAuxPowHeader.length)).length < 32
            · simp [checkAuxPowProofOfWork, hb, hmx, hpw, hmr, hfind, hlen,
                -List.headD_eq_head?_getD, -List.length_drop,
                show ¬ 32 ≤ ((ap.coinbaseTx.vin.headD ⟨[]⟩).scriptSig.drop
                  (pc + pchAuxPowHeader.length)).length by omega]
            · by_cases hcm : beBytesToNat (((ap.coinbaseTx.vin.headD ⟨[]⟩).scriptSig.drop
                  (pc + pchAuxPowHeader.length)).take 32) =
                  hh { blk.header with nVersion := blk.header.nVersion &&& 0xFFFFFEFF }
              · by_cases hmem : hh ap.parentBlock ∈ scanned
                · simp [checkAuxPowProofOfWork, hb, hmx, hpw, hmr, hfind, hlen, hcm, hmem,
                    -List.headD_eq_head?_getD, -List.length_drop]
                · simp [checkAuxPowProofOfWork, hb, hmx, hpw, hmr, hfind, hlen, hcm, hmem,
                    -List.headD_eq_head?_getD, -List.length_drop,
                    show 32 ≤ ((ap.coinbaseTx.vin.headD ⟨[]⟩).scriptSig.drop
                      (pc + pchAuxPowHeader.length)).length by omega]
              · simp [checkAuxPowProofOfWork, hb, hmx, hpw, hmr, hfind, hlen, hcm,
                  -List.headD_eq_head?_getD, -List.length_drop]
        · simp [checkAuxPowProofOfWork, hb, hmx, hpw, hmr,
            -List.headD_eq_head?_getD, -List.length_drop]

/-- Duplicate-parent helper: a proof that passes every check against the
empty set fails with the duplicate-parent error against any set that
contains its parent hash. -/
theorem checkAuxPow_dup_err (hh : CBlockHeader → Nat) (ht : CTransaction → Nat)
    (cb : Nat → Nat → Nat) (scanned : List Nat) (blk : CBlock) (p : ConsensusParams)
    (hok0 : (checkAuxPowProofOfWork hh ht cb [] blk p).1 = .ok ())
    (ap : CAuxPow) (hap : blk.m_auxpow = some ap)
    (hmem : hh ap.parentBlock ∈ scanned) :
    (checkAuxPowProofOfWork hh ht cb scanned blk p).1 = .error .duplicateParent := by
  rcases (checkAuxPow_ok_iff hh ht cb [] blk p).mp hok0 with
    ⟨hb, ap2, hap2, hpw, hmr, pc, hfind, hlen, hcm, _⟩
  rw [hap] at hap2
  injection hap2 with he
  subst he
  simp [checkAuxPowProofOfWork, hb, hap, hpw, hmr, hfind, hcm, hmem,
    -List.headD_eq_head?_getD, -List.length_drop,
    show ¬ ((ap.coinbaseTx.vin.headD ⟨[]⟩).scriptSig.drop
      (pc + pchAuxPowHeader.length)).length < 32 by omega]

/-- C3: whenever AuxPoW verification succeeds, the parent coinbase's first
input script contains the magic prefix 0x70 0x6c 0x6d 0x01 followed by at
least 32 bytes, and those 32 bytes byte-reversed equal the hash of the
block's header with the AuxPoW version bit (1 << 8) cleared. -/
theorem checkAuxPow_commitment (hh : CBlockHeader → Nat) (ht : CTransaction → Nat)
    (cb : Nat → Nat → Nat) (scanned : List Nat) (blk : CBlock) (p : ConsensusParams)
    (hok : (checkAuxPowProofOfWork hh ht cb scanned blk p).1 = .ok ()) :
    ∃ ap pc, blk.m_auxpow = some ap ∧
      findSubseqIdx pchAuxPowHeader (ap.coinbaseTx.vin.headD ⟨[]⟩).scriptSig = some pc ∧
      pchAuxPowHeader.isPrefixOf ((ap.coinbaseTx.vin.headD ⟨[]⟩).scriptSig.drop pc) = true ∧
      32 ≤ ((ap.coinbaseTx.vin.headD ⟨[]⟩).scriptSig.drop (pc + pchAuxPowHeader.length)).length ∧
      beBytesToNat (((ap.coinbaseTx.vin.headD ⟨[]⟩).scriptSig.drop
          (pc + pchAuxPowHeader.length)).take 32) =
        hh { blk.header with nVersion := blk.header.nVersion &&& 0xFFFFFEFF } := by
  rcases (checkAuxPow_ok_iff hh ht cb scanned blk p).mp hok with
    ⟨hb, ap, hap, hpw, hmr, pc, hfind, hlen, hcm, hmem⟩
  exact ⟨ap, pc, hap, hfind, findSubseqIdx_isPrefixOf _ _ _ hfind, hlen, hcm⟩

/-- C3 witness: the commitment facts extracted from a concrete passing
AuxPoW block. -/
theorem checkAuxPow_commitment_w :
    ∃ ap pc, auxBlockFix.m_auxpow = some ap ∧
      findSubseqIdx pchAuxPowHeader (ap.coinbaseTx.vin.headD ⟨[]⟩).scriptSig = some pc ∧
      pchAuxPowHeader.isPrefixOf ((ap.coinbaseTx.vin.headD ⟨[]⟩).scriptSig.drop pc) = true ∧
      32 ≤ ((ap.coinbaseTx.vin.headD ⟨[]⟩).scriptSig.drop (pc + pchAuxPowHeader.length)).length ∧
      beBytesToNat (((ap.coinbaseTx.vin.headD ⟨[]⟩).scriptSig.drop
          (pc + pchAuxPowHeader.length)).take 32) =
        hashHeaderOne { auxBlockFix.header with
          nVersion := auxBlockFix.header.nVersion &&& 0xFFFFFEFF } :=
  checkAuxPow_commitment hashHeaderOne hashTxFive Nat.add [] auxBlockFix mainParams (by rfl)

/-- C6: the AuxPoW verifier fails whenever the parent hash is already in
the process-wide duplicate-parent set — with the duplicate-parent error
when every other check passes — and it never mutates the set: the returned
set is the input set on every path, insertion being deferred to block
connection. -/
theorem checkAuxPow_dupSet (hh : CBlockHeader → Nat) (ht : CTransaction → Nat)
    (cb : Nat → Nat → Nat) (scanned : List Nat) (blk : CBlock) (p : ConsensusParams) :
    (∀ ap, blk.m_auxpow = some ap → hh ap.parentBlock ∈ scanned →
        (checkAuxPowProofOfWork hh ht cb scanned blk p).1 ≠ .ok ()) ∧
    (∀ ap, blk.m_auxpow = some ap → hh ap.parentBlock ∈ scanned →
        (checkAuxPowProofOfWork hh ht cb [] blk p).1 = .ok () →
        (checkAuxPowProofOfWork hh ht cb scanned blk p).1 = .error .duplicateParent) ∧
    (checkAuxPowProofOfWork hh ht cb scanned blk p).2 = scanned := by
  refine ⟨?_, ?_, checkAuxPow_snd hh ht cb scanned blk p⟩
  · intro ap hap hmem hok
    rcases (checkAuxPow_ok_iff hh ht cb scanned blk p).mp hok with
      ⟨hb, ap2, hap2, _, _, _, _, _, _, hmem2⟩
    rw [hap] at hap2
    injection hap2 with he
    subst he
    exact hmem2 hmem
  · intro ap hap hmem hok0
    exact checkAuxPow_dup_err hh ht cb scanned blk p hok0 ap hap hmem

/-- C6 witness: a concrete proof that passes against the empty set fails
with the duplicate-parent error once its parent hash is in the set, and
the set comes back unchanged. -/
theorem checkAuxPow_dupSet_w :
    (checkAuxPowProofOfWork hashHeaderOne hashTxFive Nat.add [1] auxBlockFix mainParams).1 =
      .error .duplicateParent ∧
    (checkAuxPowProofOfWork hashHeaderOne hashTxFive Nat.add [1] auxBlockFix mainParams).2 = [1] :=
  ⟨(checkAuxPow_dupSet hashHeaderOne hashTxFive Nat.add [1] auxBlockFix mainParams).2.1
      auxPowFix rfl (by decide) (by rfl),
   (checkAuxPow_dupSet hashHeaderOne hashTxFive Nat.add [1] auxBlockFix mainParams).2.2⟩

/-- C4 (amended): the target decoded from the compact value the LWMA
retarget returns never exceeds `powLimit` — the computation clamps to the
limit before encoding, and encoding only truncates downward. -/
theorem lwmaNextWork_le (b : CBlockIndex) (p : ConsensusParams)
    (hp : p.powLimit < 2 ^ 256) :
    (setCompact (lwmaCalculateNextWorkRequired b p)).value ≤ p.powLimit := by
  have key : ∀ v : Nat, v ≤ p.powLimit → (setCompact (getCompact v)).value ≤ p.powLimit :=
    fun v hv => le_trans (getCompactValue_le v (lt_of_le_of_lt hv hp)) hv
  simp only [lwmaCalculateNextWorkRequired]
  repeat' split
  all_goals first
    | exact key _ (le_refl _)
    | exact key _ (by omega)

/-- C4 witness: the bound at a concrete predecessor index under the main
parameters. -/
theorem lwmaNextWork_le_w :
    (setCompact (lwmaCalculateNextWorkRequired (.mk 0 0 0 none) mainParams)).value ≤
      mainParams.powLimit :=
  lwmaNextWork_le (.mk 0 0 0 none) mainParams (by decide)

set_option maxHeartbeats 12000000 in
/-- C4 counterexample: a full 240-block window of zero targets (tip height
240) makes the LWMA result decode to target 0, so the claimed strict
positivity of the computed next target fails. -/
theorem lwmaNextWork_cx :
    240 ≤ (zeroChain 240).nHeight ∧
    (setCompact (lwmaCalculateNextWorkRequired (zeroChain 240) mainParams)).value = 0 := by
  exact ⟨by decide, by decide⟩
